import Mathlib

/-!
Verification of the z80asm two-pass Z80 assembler (github.com/paulhankin/z80asm).

This file shallowly embeds the parts of the assembler that the verified
claims are about:

* the operand-shape catalogue, `argType`, `argLen` and the pair encoding
  `arg2 a b = 1024*a + b`;
* integer operand serialization `serializeIntArg` with its per-shape
  ranges and endianness;
* the expression evaluator `evalAs` / `getIntValue` (register matching,
  condition codes, brackets/indirection, `(ix+d)` displacements, relative
  addresses);
* the variant matcher of `commandAssembler.W` with its prefix/operand
  interleaving rule;
* the instruction table together with the IX/IY table derivation
  (`replaceCommands`);
* the drivers: `AssembleFile`'s two-pass loop, `writeByte`'s buffer
  growth, `setLabel`'s redefinition policy, and the per-pass error
  accumulation loop of `assembleFile`.

Modelling conventions: Go strings are embedded as lists of character
codes (`List Nat`); Go's `int64` arithmetic is embedded with explicit
wrapping (`wrap64`); the Go triple `([]byte, bool, error)` is embedded as
the inductive `Res` (`ok` / `nomatch` / `err`), with `fault` standing for
the `log.Fatalf` / runtime-panic paths; Go error strings are embedded as
the structured type `ErrMsg`, so "the returned error joins the messages
with newlines" is modelled as returning the list of messages.
-/

namespace Z80Asm

/-- Character codes of a string literal; Go strings are embedded as lists
of character codes. -/
def str2codes (s : String) : List Nat := s.data.map Char.toNat

/-- Identifier / command name, as character codes. -/
abbrev Name := List Nat

/-- A byte sequence (each entry < 256 in practice). -/
abbrev Bytes := List Nat

/-! ### Operand shapes (the `arg` enumeration of the source) -/

def void : Nat := 0
def regA : Nat := 1
def regB : Nat := 2
def regC : Nat := 3
def regD : Nat := 4
def regE : Nat := 5
def regH : Nat := 6
def regL : Nat := 7
def regI : Nat := 8
def regR : Nat := 9
def regAF : Nat := 10
def regAF2 : Nat := 11
def regBC : Nat := 12
def regDE : Nat := 13
def regHL : Nat := 14
def regSP : Nat := 15
def regIX : Nat := 16
def regIXL : Nat := 17
def regIXH : Nat := 18
def regIY : Nat := 19
def regIYH : Nat := 20
def regIYL : Nat := 21
def indBC : Nat := 22
def indDE : Nat := 23
def indHL : Nat := 24
def indIX : Nat := 25
def indIY : Nat := 26
def indIXplus : Nat := 27
def indIYplus : Nat := 28
def indSP : Nat := 29
def const8 : Nat := 30
def const16 : Nat := 31
def const16be : Nat := 32
def constS8 : Nat := 33
def addr16 : Nat := 34
def reladdr8 : Nat := 35
def port8 : Nat := 36
def portC : Nat := 37
def ind16 : Nat := 38
def ccNZ : Nat := 39
def ccNC : Nat := 40
def ccPO : Nat := 41
def ccP : Nat := 42
def ccZ : Nat := 43
def ccC : Nat := 44
def ccPE : Nat := 45
def ccM : Nat := 46
def val00h : Nat := 47
def val01h : Nat := 48
def val02h : Nat := 49
def val03h : Nat := 50
def val04h : Nat := 51
def val05h : Nat := 52
def val06h : Nat := 53
def val07h : Nat := 54
def val08h : Nat := 55
def val10h : Nat := 56
def val18h : Nat := 57
def val20h : Nat := 58
def val28h : Nat := 59
def val30h : Nat := 60
def val38h : Nat := 61
def argstring : Nat := 62

/-- Pair encoding of a two-operand shape: `arg2(a, b) = 1024*a + b`. -/
def arg2 (a b : Nat) : Nat := 1024 * a + b

/-- Number of operands a shape describes (`argLen` of the source). -/
def argLen (a : Nat) : Nat := if a = 0 then 0 else if a < 1024 then 1 else 2

/-- The `argumentType` enumeration of the source. -/
inductive ArgType where
  | void
  | reg
  | cc
  | indReg
  | indAddress
  | address
  | indRegPlusInt
  | relAddress
  | fixed
  | int
  | port
  | portC
  | str
  | unknown
deriving DecidableEq

/-- Shape classification (`argType` of the source). -/
def argType (a : Nat) : ArgType :=
  if a = void then .void
  else if a ∈ [regA, regB, regC, regD, regE, regH, regL, regI, regR, regAF, regAF2,
      regBC, regDE, regHL, regSP, regIX, regIXL, regIXH, regIY, regIYH, regIYL] then .reg
  else if a ∈ [indBC, indDE, indHL, indSP, indIX, indIY] then .indReg
  else if a ∈ [indIXplus, indIYplus] then .indRegPlusInt
  else if a ∈ [const8, const16, const16be, constS8] then .int
  else if a = addr16 then .address
  else if a = reladdr8 then .relAddress
  else if a = port8 then .port
  else if a = portC then .portC
  else if a = ind16 then .indAddress
  else if a ∈ [ccNZ, ccNC, ccPO, ccP, ccZ, ccC, ccPE, ccM] then .cc
  else if a ∈ [val00h, val01h, val02h, val03h, val04h, val05h, val06h, val07h,
      val08h, val10h, val18h, val20h, val28h, val30h, val38h] then .fixed
  else if a = argstring then .str
  else .unknown

/-- Printable names of the single-operand shapes (`argMap` of the source);
only the register and condition-code entries are ever consulted (by
`getMatchingArgs`). `regAF2`'s name is the three codes of `af'`. -/
def argCodes (a : Nat) : Name :=
  if a = regA then str2codes "a"
  else if a = regB then str2codes "b"
  else if a = regC then str2codes "c"
  else if a = regD then str2codes "d"
  else if a = regE then str2codes "e"
  else if a = regH then str2codes "h"
  else if a = regL then str2codes "l"
  else if a = regI then str2codes "i"
  else if a = regR then str2codes "r"
  else if a = regAF then str2codes "af"
  else if a = regAF2 then [97, 102, 39]
  else if a = regBC then str2codes "bc"
  else if a = regDE then str2codes "de"
  else if a = regHL then str2codes "hl"
  else if a = regSP then str2codes "sp"
  else if a = regIX then str2codes "ix"
  else if a = regIXL then str2codes "ixl"
  else if a = regIXH then str2codes "ixh"
  else if a = regIY then str2codes "iy"
  else if a = regIYH then str2codes "iyh"
  else if a = regIYL then str2codes "iyl"
  else if a = ccNZ then str2codes "nz"
  else if a = ccNC then str2codes "nc"
  else if a = ccPO then str2codes "po"
  else if a = ccP then str2codes "p"
  else if a = ccZ then str2codes "z"
  else if a = ccC then str2codes "c"
  else if a = ccPE then str2codes "pe"
  else if a = ccM then str2codes "m"
  else []

/-- The register-name map (`regFromString = getMatchingArgs(argTypeReg)`):
scan the shapes below 1024 for registers whose printed name is `s`. -/
def regFromString (s : Name) : Option Nat :=
  ((List.range 1024).filter fun a => argType a = ArgType.reg).find? fun a => argCodes a = s

/-- The condition-code map (`ccFromString = getMatchingArgs(argTypeCC)`). -/
def ccFromString (s : Name) : Option Nat :=
  ((List.range 1024).filter fun a => argType a = ArgType.cc).find? fun a => argCodes a = s

/-! ### Result type and structured error messages -/

/-- The source location `file:line.column` carried by errors
(`Assembler.location`). -/
structure Loc where
  file : Name
  line : Nat
  col : Nat
deriving DecidableEq

/-- Location compared against when a label has no recorded assignment:
Go's zero-value string. -/
def emptyLoc : Loc := ⟨[], 0, 0⟩

/-- Structured stand-ins for the assembler's error strings. -/
inductive ErrMsg where
  | notInRange (i lo hi : Int)
  | unknownLabel (id : Name)
  | labelRedefined (name : Name) (first : Loc)
  | noSuitable
  | divByZero
  | modByZero
  | negativeShift
  | cantCompute
  | badFixed (i : Int)
  | indBadOp
  | indRhsNotInt
  | indDispOutOfRange (n : Int)
deriving DecidableEq

/-- Embedding of the Go triple `([]byte, bool, error)`: `ok` is
`(bs, true, nil)`, `nomatch` is `(_, false, nil)`, `err` is an error
return, and `fault` stands for the `log.Fatalf` (or runtime panic) paths
that terminate the process. -/
inductive Res (α : Type) where
  | ok (val : α)
  | nomatch
  | err (e : ErrMsg)
  | fault
deriving DecidableEq

/-! ### Integer operand serialization (`serializeIntArg`) -/

/-- Per-shape integer range and byte size (`argRange` of the source);
`none` for the `log.Fatalf` default. -/
def argRange (a : Nat) : Option (Int × Int × Nat) :=
  if a = const8 then some (-128, 255, 1)
  else if a = const16 then some (-32768, 65535, 2)
  else if a = const16be then some (-32768, 65535, 2)
  else if a = constS8 then some (-128, 127, 1)
  else if a = addr16 then some (0, 65535, 2)
  else if a = reladdr8 then some (-128, 127, 1)
  else if a = port8 then some (0, 255, 1)
  else if a = ind16 then some (0, 65535, 2)
  else none

/-- Which two-byte shapes serialize high byte first (`writesBigEndian`). -/
def writesBigEndian (a : Nat) : Bool := a = const16be

/-- Serialization of an integer operand (`serializeIntArg`): range check
(a hard error when violated), then `ui := uint16(i)` and a 1- or 2-byte
little-endian emission, big-endian for `const16be`. -/
def serializeIntArg (i : Int) (a : Nat) : Res Bytes :=
  match argRange a with
  | none => .fault
  | some (lo, hi, size) =>
    if i < lo ∨ i > hi then .err (.notInRange i lo hi)
    else
      let ui : Nat := (Int.emod i 65536).toNat
      if size = 1 then .ok [ui % 256]
      else if size = 2 then
        if writesBigEndian a then .ok [ui / 256, ui % 256]
        else .ok [ui % 256, ui / 256]
      else .fault

/-! ### Expressions and evaluation -/

/-- The expression AST (`expr` implementations of the source). An
identifier carries the register and condition-code shapes it was
annotated with at parse time (0 = none). Operators are carried as the
scanner's rune codes. -/
inductive Expr where
  | int (i : Int)
  | str (s : List Nat)
  | char (c : Nat)
  | ident (id : Name) (r : Nat) (cc : Nat)
  | bracket (e : Expr)
  | unaryOp (op : Int) (e : Expr)
  | binaryOp (op : Int) (e1 e2 : Expr)
deriving DecidableEq

/-- Multi-character operator token codes (`tokLTLT` etc., `-iota - 20`). -/
def tokLTLT : Int := -20
def tokGTGT : Int := -21
def tokAndNot : Int := -22
def tokEqEq : Int := -23
def tokNotEq : Int := -24
def tokLTEq : Int := -25
def tokGTEq : Int := -26
def tokAndAnd : Int := -27
def tokOrOr : Int := -28

/-- Two's-complement wrap to Go's `int64`. -/
def wrap64 (n : Int) : Int := Int.emod (n + 2 ^ 63) (2 ^ 64) - 2 ^ 63

/-- Unsigned 64-bit view of an `int64` value, for the bitwise operators. -/
def toU64 (n : Int) : Nat := (Int.emod n (2 ^ 64)).toNat

/-- Back from the unsigned 64-bit view. -/
def ofU64 (u : Nat) : Int := if u < 2 ^ 63 then (u : Int) else (u : Int) - 2 ^ 64

/-- Go's `bool2int`. -/
def bool2int (b : Bool) : Int := if b then 1 else 0

/-- The unary operator evaluation (`exprUnaryOp.apply`): `!`, `^`
(bitwise not) and `-`; the `log.Fatalf` default is modelled as 0 and is
unreachable from the parser. -/
def applyUnary (op : Int) (n : Int) : Int :=
  if op = 33 then bool2int (n = 0)
  else if op = 94 then wrap64 (-n - 1)
  else if op = 45 then wrap64 (-n)
  else 0

/-- The pure part of `exprBinaryOp.apply` once both operands are known
(the short-circuit operators are handled by the caller). Binary `^` is
parsed but has no case in the source's `apply`, hence `fault`. -/
def applyBinOp (op : Int) (n1 n2 : Int) : Res Int :=
  if op = 43 then .ok (wrap64 (n1 + n2))
  else if op = 45 then .ok (wrap64 (n1 - n2))
  else if op = 42 then .ok (wrap64 (n1 * n2))
  else if op = 47 then (if n2 = 0 then .err .divByZero else .ok (Int.tdiv n1 n2))
  else if op = 37 then (if n2 = 0 then .err .modByZero else .ok (Int.tmod n1 n2))
  else if op = 38 then .ok (ofU64 (Nat.land (toU64 n1) (toU64 n2)))
  else if op = tokAndNot then .ok (ofU64 (Nat.land (toU64 n1) (2 ^ 64 - 1 - toU64 n2)))
  else if op = 124 then .ok (ofU64 (Nat.lor (toU64 n1) (toU64 n2)))
  else if op = tokEqEq then .ok (bool2int (n1 = n2))
  else if op = tokNotEq then .ok (bool2int (n1 ≠ n2))
  else if op = tokLTEq then .ok (bool2int (n1 ≤ n2))
  else if op = tokGTEq then .ok (bool2int (n2 ≤ n1))
  else if op = 60 then .ok (bool2int (n1 < n2))
  else if op = 62 then .ok (bool2int (n2 < n1))
  else if op = tokGTGT then
    (if n2 < 0 then .err .negativeShift else .ok (Int.fdiv n1 ((2 : Int) ^ n2.toNat)))
  else if op = tokLTLT then
    (if n2 < 0 then .err .negativeShift else .ok (wrap64 (n1 * (2 : Int) ^ n2.toNat)))
  else .fault

/-- Argument-shape values of the fixed immediates (`argVals`). -/
def argVals (a : Nat) : Int :=
  if a = val00h then 0
  else if a = val01h then 1
  else if a = val02h then 2
  else if a = val03h then 3
  else if a = val04h then 4
  else if a = val05h then 5
  else if a = val06h then 6
  else if a = val07h then 7
  else if a = val08h then 8
  else if a = val10h then 0x10
  else if a = val18h then 0x18
  else if a = val20h then 0x20
  else if a = val28h then 0x28
  else if a = val30h then 0x30
  else if a = val38h then 0x38
  else 0

/-- The set of values a fixed immediate may take (`validFixedArgs`). -/
def validFixedArgs (i : Int) : Bool :=
  i ∈ [0, 1, 2, 3, 4, 5, 6, 7, 8, 0x10, 0x18, 0x20, 0x28, 0x30, 0x38]

/-- The register named inside an indirect shape (`indRegGetReg`). The
source has no case for `indIX`/`indIY` (its default is a `log.Fatalf`);
that default is modelled as `void`, which makes a bracket evaluated at
those two shapes a no-match — no verified claim exercises that path. -/
def indRegGetReg (a : Nat) : Nat :=
  if a = indBC then regBC
  else if a = indHL then regHL
  else if a = indDE then regDE
  else if a = indSP then regSP
  else if a = indIXplus then regIX
  else if a = indIYplus then regIY
  else void

/-- Assembler state: the fields of the Go `Assembler` struct that the
embedded operations read or write. `pc` is Go's `int`, `l` the label map,
`labelAssign` the label-definition-location map (an association list in
pass-0 insertion order), `m` the output buffer. -/
structure Asm where
  pass : Nat
  pc : Int
  target : Nat
  l : Name → Option Nat
  labelAssign : List (Name × Loc)
  currentMajor : Name
  consts : Name → Option Int
  constsDef : Name → Bool
  m : List Nat

/-- Label lookup (`exprIdent.getIntValue` body): annotated registers and
condition codes do not evaluate to integers; a missing label is an error
in pass 1 and the zero value in pass 0. -/
def identGetIntValue (st : Asm) (id : Name) (r cc : Nat) : Res Int :=
  if r ≠ 0 ∨ cc ≠ 0 then .nomatch
  else
    match st.l id with
    | some v => .ok (v : Int)
    | none => if st.pass > 0 then .err (.unknownLabel id) else .ok 0

/-- Compile-time integer value of an expression (`getIntValue`), with the
short-circuit rule for `&&`/`||` and Go's error propagation: a
non-integer right operand of a binary operator is a hard error, a
non-integer left operand is a no-match. -/
def getIntValue (st : Asm) : Expr → Res Int
  | .ident id r cc => identGetIntValue st id r cc
  | .bracket e => getIntValue st e
  | .unaryOp op e =>
    match getIntValue st e with
    | .ok n => .ok (applyUnary op n)
    | .nomatch => .nomatch
    | .err e => .err e
    | .fault => .fault
  | .int i => .ok i
  | .binaryOp op e1 e2 =>
    match getIntValue st e1 with
    | .nomatch => .nomatch
    | .err e => .err e
    | .fault => .fault
    | .ok n1 =>
      if op = tokAndAnd ∨ op = tokOrOr then
        if (n1 ≠ 0 ∧ op = tokOrOr) ∨ (n1 = 0 ∧ op = tokAndAnd) then .ok n1
        else
          match getIntValue st e2 with
          | .ok n2 => .ok n2
          | .err e => .err e
          | .fault => .fault
          | .nomatch => .err .cantCompute
      else
        match getIntValue st e2 with
        | .err e => .err e
        | .fault => .fault
        | .nomatch => .err .cantCompute
        | .ok n2 => applyBinOp op n1 n2
  | _ => .nomatch

/-- Evaluation of an integer expression against a shape
(`exprInt.evalAs`): immediates and addresses serialize, a literal never
matches a relative address, and fixed immediates compare against
`argVals` after validity checking. -/
def evalIntAs (i : Int) (a : Nat) : Res Bytes :=
  match argType a with
  | .int | .address => serializeIntArg i a
  | .relAddress => .nomatch
  | .fixed =>
    if ¬validFixedArgs i then .err (.badFixed i)
    else if i = argVals a then .ok [] else .nomatch
  | _ => .nomatch

/-- Evaluation of a parsed argument against an operand shape
(`evalAs(asm, a, top)` of the source, dispatching on the expression).
The `top` flag stops a bracketed expression from matching a plain
integer shape at the top level of an operand. -/
def evalAs (st : Asm) : Expr → Nat → Bool → Res Bytes
  | .int i, a, _ => evalIntAs i a
  | .str s, a, _ => if a = argstring then .ok s else .nomatch
  | .char c, a, _ =>
    match argType a with
    | .int => serializeIntArg (c : Int) a
    | _ => .nomatch
  | .unaryOp op e, a, _ =>
    match getIntValue st (.unaryOp op e) with
    | .ok iv => evalIntAs iv a
    | .nomatch => .nomatch
    | .err e => .err e
    | .fault => .fault
  | .binaryOp op e1 e2, a, _ =>
    match getIntValue st (.binaryOp op e1 e2) with
    | .ok iv => evalIntAs iv a
    | .nomatch => .nomatch
    | .err e => .err e
    | .fault => .fault
  | .ident id r cc, a, _ =>
    match argType a with
    | .reg => if r = a then .ok [] else .nomatch
    | .cc => if cc = a then .ok [] else .nomatch
    | .int | .address | .relAddress =>
      match identGetIntValue st id r cc with
      | .ok v =>
        let rv : Int :=
          if argType a = .relAddress then
            if st.pass = 0 then 0 else v - (st.pc + 2)
          else v
        serializeIntArg rv a
      | .nomatch => .nomatch
      | .err e => .err e
      | .fault => .fault
    | _ => .nomatch
  | .bracket e, a, top =>
    match argType a with
    | .int => if top then .nomatch else evalAs st e a false
    | .indReg =>
      match evalAs st e (indRegGetReg a) false with
      | .ok _ => .ok []
      | .nomatch => .nomatch
      | .err e => .err e
      | .fault => .fault
    | .indAddress => evalAs st e addr16 false
    | .indRegPlusInt =>
      match e with
      | .ident _ r _ => if r = indRegGetReg a then .ok [0] else .nomatch
      | .binaryOp op e1 e2 =>
        match evalAs st e1 (indRegGetReg a) false with
        | .nomatch => .nomatch
        | .err e => .err e
        | .fault => .fault
        | .ok _ =>
          if op ≠ 43 ∧ op ≠ 45 then .err .indBadOp
          else
            match getIntValue st e2 with
            | .ok n =>
              let n' := if op = 45 then -n else n
              if n' < -128 ∨ n' > 127 then .err (.indDispOutOfRange n')
              else serializeIntArg n' const8
            | _ => .err .indRhsNotInt
      | _ => .nomatch
    | .port => evalAs st e const8 false
    | .portC => evalAs st e regC false
    | _ => .nomatch

/-! ### The variant matcher and encoder (`commandAssembler.W`) -/

/-- One variant table of a mnemonic: operand shape to fixed byte pattern
(the `args` map of the source, in source order). -/
abbrev VarList := List (Nat × Bytes)

/-- A command table: mnemonic to variants (a `map[string]args`). -/
abbrev Table := List (Name × VarList)

/-- Compatibility of the parsed argument vector with one shape
(`argsCompatible`): the lengths must agree, a zero-operand shape matches
trivially, a pair shape evaluates both operands, a single shape one. -/
def argsCompatible (st : Asm) (vals : List Expr) (a : Nat) : Res Bytes :=
  if vals.length ≠ argLen a then .nomatch
  else if a = 0 then .ok []
  else if 1024 ≤ a then
    match vals with
    | [v0, v1] =>
      match evalAs st v0 (a / 1024) true with
      | .nomatch => .nomatch
      | .err e => .err e
      | .fault => .fault
      | .ok a0 =>
        match evalAs st v1 (a % 1024) true with
        | .nomatch => .nomatch
        | .err e => .err e
        | .fault => .fault
        | .ok a1 => .ok (a0 ++ a1)
    | _ => .nomatch
  else
    match vals with
    | [v0] => evalAs st v0 a true
    | _ => .nomatch

/-- The interleaved emission of `commandAssembler.W`: the first
`n = min(2, len)` fixed bytes, then the operand bytes, then the remaining
fixed bytes. -/
def emitPattern (bs ops : Bytes) : Bytes := bs.take 2 ++ ops ++ bs.drop 2

/-- The variant loop of `commandAssembler.W`: scan the variants in order,
abort on an evaluation error, emit on the first match, and fault (the
`log.Fatalf`) if a second variant also matches. -/
def scanVariants (st : Asm) (vals : List Expr) : VarList → Option Bytes → Res (Option Bytes)
  | [], found => .ok found
  | (a, bs) :: rest, found =>
    match argsCompatible st vals a with
    | .err e => .err e
    | .fault => .fault
    | .nomatch => scanVariants st vals rest found
    | .ok ops =>
      match found with
      | some _ => .fault
      | none => scanVariants st vals rest (some (emitPattern bs ops))

/-- `commandAssembler.W` as a function from the parsed arguments to the
bytes the statement writes: no matching variant is the
`no suitable form of ...` error. -/
def commandAssemblerW (st : Asm) (vals : List Expr) (variants : VarList) : Res Bytes :=
  match scanVariants st vals variants none with
  | .ok (some out) => .ok out
  | .ok none => .err .noSuitable
  | .nomatch => .err .noSuitable
  | .err e => .err e
  | .fault => .fault

/-! ### The instruction table (base and IX/IY-derived) -/

/-- The eight-register family of a row (`stdOpts`): `b c d e h l (hl) a`
with consecutive opcodes from `base`, behind an optional prefix. -/
def stdOpts (arg1 : Nat) (base : Nat) (pfx : Bytes) : VarList :=
  ([regB, regC, regD, regE, regH, regL, indHL, regA].enum).map
    fun p => (arg2 arg1 p.2, pfx ++ [base + p.1])

/-- Union of variant maps (`joinOpts`); the duplicate check panics in the
source and no duplicate occurs in the built tables. -/
def joinOpts (os : List VarList) : VarList := os.flatten

/-- Removal of one variant (`rmOpt`). -/
def rmOpt (os : VarList) (o : Nat) : VarList := os.filter fun p => p.1 ≠ o

/-- The base one-or-two-operand instruction table (`commandsArgs`),
transcribed in source order. -/
def commandsArgs : Table :=
  [ (str2codes "inc",
     [(regA, [0x3c]), (regB, [0x04]), (regC, [0x0c]), (regD, [0x14]),
      (regE, [0x1c]), (regH, [0x24]), (regL, [0x2c]), (regBC, [0x03]),
      (regDE, [0x13]), (regHL, [0x23]), (regSP, [0x33]), (indHL, [0x34])]),
    (str2codes "dec",
     [(regA, [0x3d]), (regB, [0x05]), (regC, [0x0d]), (regD, [0x15]),
      (regE, [0x1d]), (regH, [0x25]), (regL, [0x2d]), (regBC, [0x0b]),
      (regDE, [0x1b]), (regHL, [0x2b]), (regSP, [0x3b]), (indHL, [0x35])]),
    (str2codes "djnz", [(reladdr8, [0x10])]),
    (str2codes "sub", joinOpts [stdOpts 0 0x90 [], [(const8, [0xd6])]]),
    (str2codes "and", joinOpts [stdOpts 0 0xa0 [], [(const8, [0xe6])]]),
    (str2codes "xor", joinOpts [stdOpts 0 0xa8 [], [(const8, [0xee])]]),
    (str2codes "or", joinOpts [stdOpts 0 0xb0 [], [(const8, [0xf6])]]),
    (str2codes "cp", joinOpts [stdOpts 0 0xb8 [], [(const8, [0xfe])]]),
    (str2codes "rlc", stdOpts 0 0x00 [0xcb]),
    (str2codes "rrc", stdOpts 0 0x08 [0xcb]),
    (str2codes "rl", stdOpts 0 0x10 [0xcb]),
    (str2codes "rr", stdOpts 0 0x18 [0xcb]),
    (str2codes "sla", stdOpts 0 0x20 [0xcb]),
    (str2codes "sra", stdOpts 0 0x28 [0xcb]),
    (str2codes "srl", stdOpts 0 0x38 [0xcb]),
    (str2codes "ld", joinOpts
      [[ (arg2 regBC const16, [0x01]), (arg2 regDE const16, [0x11]),
         (arg2 regHL const16, [0x21]), (arg2 regSP const16, [0x31]),
         (arg2 indBC regA, [0x02]), (arg2 indDE regA, [0x12]),
         (arg2 ind16 regHL, [0x22]), (arg2 ind16 regA, [0x32]),
         (arg2 regB const8, [0x06]), (arg2 regD const8, [0x16]),
         (arg2 regH const8, [0x26]), (arg2 indHL const8, [0x36]),
         (arg2 regA indBC, [0x0a]), (arg2 regA indDE, [0x1a]),
         (arg2 regHL ind16, [0x2a]), (arg2 regA ind16, [0x3a]),
         (arg2 regC const8, [0x0e]), (arg2 regE const8, [0x1e]),
         (arg2 regL const8, [0x2e]), (arg2 regA const8, [0x3e]),
         (arg2 regSP regHL, [0xf9]), (arg2 ind16 regBC, [0xed, 0x43]),
         (arg2 ind16 regDE, [0xed, 0x53]), (arg2 ind16 regSP, [0xed, 0x73]),
         (arg2 regI regA, [0xed, 0x47]), (arg2 regA regI, [0xed, 0x57]),
         (arg2 regBC ind16, [0xed, 0x4b]), (arg2 regDE ind16, [0xed, 0x5b]),
         (arg2 regSP ind16, [0xed, 0x7b]), (arg2 regR regA, [0xed, 0x4f]),
         (arg2 regA regR, [0xed, 0x5f]) ],
       stdOpts regB 0x40 [],
       stdOpts regD 0x50 [],
       stdOpts regH 0x60 [],
       rmOpt (stdOpts indHL 0x70 []) (arg2 indHL indHL),
       stdOpts regC 0x48 [],
       stdOpts regE 0x58 [],
       stdOpts regL 0x68 [],
       stdOpts regA 0x78 []]),
    (str2codes "ex",
     [(arg2 regAF regAF2, [0x08]), (arg2 indSP regHL, [0xe3]),
      (arg2 regDE regHL, [0xeb])]),
    (str2codes "push",
     [(regBC, [0xc5]), (regDE, [0xd5]), (regHL, [0xe5]), (regAF, [0xf5])]),
    (str2codes "pop",
     [(regBC, [0xc1]), (regDE, [0xd1]), (regHL, [0xe1]), (regAF, [0xf1])]),
    (str2codes "add", joinOpts
      [[ (arg2 regHL regBC, [0x09]), (arg2 regHL regDE, [0x19]),
         (arg2 regHL regHL, [0x29]), (arg2 regHL regSP, [0x39]),
         (arg2 regA const8, [0xc6]) ],
       stdOpts regA 0x80 []]),
    (str2codes "adc", joinOpts
      [[ (arg2 regA const8, [0xce]), (arg2 regHL regBC, [0xed, 0x4a]),
         (arg2 regHL regDE, [0xed, 0x5a]), (arg2 regHL regHL, [0xed, 0x6a]),
         (arg2 regHL regSP, [0xed, 0x7a]) ],
       stdOpts regA 0x88 []]),
    (str2codes "sbc", joinOpts
      [[ (arg2 regA const8, [0xde]), (arg2 regHL regBC, [0xed, 0x42]),
         (arg2 regHL regDE, [0xed, 0x52]), (arg2 regHL regHL, [0xed, 0x62]),
         (arg2 regHL regSP, [0xed, 0x72]) ],
       stdOpts regA 0x98 []]),
    (str2codes "call",
     [(arg2 ccNZ addr16, [0xc4]), (arg2 ccNC addr16, [0xd4]),
      (arg2 ccPO addr16, [0xe4]), (arg2 ccP addr16, [0xf4]),
      (arg2 ccZ addr16, [0xcc]), (arg2 ccC addr16, [0xdc]),
      (arg2 ccPE addr16, [0xec]), (arg2 ccM addr16, [0xfc]),
      (addr16, [0xcd])]),
    (str2codes "jp",
     [(arg2 ccNZ addr16, [0xc2]), (arg2 ccNC addr16, [0xd2]),
      (arg2 ccPO addr16, [0xe2]), (arg2 ccP addr16, [0xf2]),
      (addr16, [0xc3]), (arg2 ccZ addr16, [0xca]),
      (arg2 ccC addr16, [0xda]), (arg2 ccPE addr16, [0xea]),
      (arg2 ccM addr16, [0xfa]), (indHL, [0xe9])]),
    (str2codes "jr",
     [(reladdr8, [0x18]), (arg2 ccZ reladdr8, [0x28]),
      (arg2 ccC reladdr8, [0x38]), (arg2 ccNZ reladdr8, [0x20]),
      (arg2 ccNC reladdr8, [0x30])]),
    (str2codes "ret",
     [(void, [0xc9]), (ccNZ, [0xc0]), (ccNC, [0xd0]), (ccPO, [0xe0]),
      (ccP, [0xf0]), (ccZ, [0xc8]), (ccC, [0xd8]), (ccPE, [0xe8]),
      (ccM, [0xf8])]),
    (str2codes "rst",
     [(val00h, [0xc7]), (val10h, [0xd7]), (val20h, [0xe7]), (val30h, [0xf7]),
      (val08h, [0xcf]), (val18h, [0xdf]), (val28h, [0xef]), (val38h, [0xff])]),
    (str2codes "bit", joinOpts
      [stdOpts val00h 0x40 [0xcb], stdOpts val01h 0x48 [0xcb],
       stdOpts val02h 0x50 [0xcb], stdOpts val03h 0x58 [0xcb],
       stdOpts val04h 0x60 [0xcb], stdOpts val05h 0x68 [0xcb],
       stdOpts val06h 0x70 [0xcb], stdOpts val07h 0x78 [0xcb]]),
    (str2codes "res", joinOpts
      [stdOpts val00h 0x80 [0xcb], stdOpts val01h 0x88 [0xcb],
       stdOpts val02h 0x90 [0xcb], stdOpts val03h 0x98 [0xcb],
       stdOpts val04h 0xa0 [0xcb], stdOpts val05h 0xa8 [0xcb],
       stdOpts val06h 0xb0 [0xcb], stdOpts val07h 0xb8 [0xcb]]),
    (str2codes "set", joinOpts
      [stdOpts val00h 0xc0 [0xcb], stdOpts val01h 0xc8 [0xcb],
       stdOpts val02h 0xd0 [0xcb], stdOpts val03h 0xd8 [0xcb],
       stdOpts val04h 0xe0 [0xcb], stdOpts val05h 0xe8 [0xcb],
       stdOpts val06h 0xf0 [0xcb], stdOpts val07h 0xf8 [0xcb]]),
    (str2codes "in",
     [(arg2 regA port8, [0xdb]), (arg2 regB portC, [0xed, 0x40]),
      (arg2 regD portC, [0xed, 0x50]), (arg2 regH portC, [0xed, 0x60]),
      (arg2 regC portC, [0xed, 0x48]), (arg2 regE portC, [0xed, 0x58]),
      (arg2 regL portC, [0xed, 0x68]), (arg2 regA portC, [0xed, 0x78])]),
    (str2codes "out",
     [(arg2 port8 regA, [0xd3]), (arg2 portC regB, [0xed, 0x41]),
      (arg2 portC regD, [0xed, 0x51]), (arg2 portC regH, [0xed, 0x61]),
      (arg2 portC regC, [0xed, 0x49]), (arg2 portC regE, [0xed, 0x59]),
      (arg2 portC regL, [0xed, 0x69]), (arg2 portC regA, [0xed, 0x79])]),
    (str2codes "im",
     [(val00h, [0xed, 0x46]), (val01h, [0xed, 0x56]), (val02h, [0xed, 0x5e])]) ]

/-- The HL-to-IX shape substitution map (`ixMap`). -/
def ixMap : List (Nat × Nat) := [(regHL, regIX), (indHL, indIXplus)]

/-- The HL-to-IY shape substitution map (`iyMap`). -/
def iyMap : List (Nat × Nat) := [(regHL, regIY), (indHL, indIYplus)]

/-- The variants omitted from the IX/IY derivation (`ixyExcludes`). -/
def ixyExcludes : List (Name × List Nat) :=
  [(str2codes "ex", [arg2 regDE regHL]),
   (str2codes "jp", [indHL]),
   (str2codes "sll", [indHL])]

/-- Whether a mnemonic's variant is in the exclusion set. -/
def excludedIxy (ex : List (Name × List Nat)) (k : Name) (a : Nat) : Bool :=
  match ex.find? fun p => p.1 = k with
  | some p => a ∈ p.2
  | none => false

/-- One component of a shape renamed via a substitution map; the Go map
lookup defaults to 0 (`void`) for absent keys. -/
def renameComponent (rn : List (Nat × Nat)) (c : Nat) : Nat :=
  let r := ((rn.find? fun p => p.1 = c).map Prod.snd).getD 0
  if r ≠ 0 then r else c

/-- Shape renaming over the `1024*a0 + a1` pair encoding (`doRename`). -/
def doRename (rn : List (Nat × Nat)) (a : Nat) : Nat :=
  1024 * renameComponent rn (a / 1024) + renameComponent rn (a % 1024)

/-- The IX/IY table derivation (`replaceCommands`): drop excluded
variants, drop variants the renaming leaves unchanged, prefix the byte
pattern, and keep a mnemonic only when some variant survives. -/
def replaceCommands (cmds : Table) (rn : List (Nat × Nat)) (pfx : Nat)
    (ex : List (Name × List Nat)) : Table :=
  cmds.filterMap fun kv =>
    let vs := kv.2.filterMap fun ab =>
      if excludedIxy ex kv.1 ab.1 then none
      else
        let rnas := doRename rn ab.1
        if rnas = ab.1 then none else some (rnas, pfx :: ab.2)
    if vs.isEmpty then none else some (kv.1, vs)

/-- Table merge (`joinCommands`): variants for an existing mnemonic are
appended to its list, a fresh mnemonic is appended to the table. -/
def joinCommands (ts : List Table) : Table :=
  ts.foldl
    (fun acc t =>
      t.foldl
        (fun acc kv =>
          if acc.any fun e => e.1 = kv.1 then
            acc.map fun e => if e.1 = kv.1 then (e.1, e.2 ++ kv.2) else e
          else acc ++ [kv])
        acc)
    []

/-- The derived IX instruction table (`ixCommands`): the renamed base
table joined with the injected `jp (ix)`. -/
def ixCommands : Table :=
  joinCommands
    [replaceCommands commandsArgs ixMap 0xdd ixyExcludes,
     [(str2codes "jp", [(indIX, [0xdd, 0xe9])])]]

/-- The derived IY instruction table (`iyCommands`). -/
def iyCommands : Table :=
  joinCommands
    [replaceCommands commandsArgs iyMap 0xfd ixyExcludes,
     [(str2codes "jp", [(indIY, [0xfd, 0xe9])])]]

/-- Variant list of a mnemonic in a table. -/
def cmdVariants (t : Table) (k : Name) : VarList :=
  ((t.find? fun p => p.1 = k).map Prod.snd).getD []

/-- All `(mnemonic, shape, pattern)` entries of a table, flattened in
table order. -/
def tableEntries (t : Table) : List (Name × Nat × Bytes) :=
  t.flatMap fun kv => kv.2.map fun ab => (kv.1, ab.1, ab.2)

/-- Modelled from the spec's words (the IX/IY derivation rule of claim
C4), independent of `replaceCommands`: substitute `HL→IX` and
`(HL)→(IX+d)` in each component of a base shape. -/
def specRenameIx (a : Nat) : Nat :=
  let comp := fun c => if c = regHL then regIX else if c = indHL then indIXplus else c
  1024 * comp (a / 1024) + comp (a % 1024)

/-- Modelled from the spec's words: the IY substitution `HL→IY`,
`(HL)→(IY+d)`. -/
def specRenameIy (a : Nat) : Nat :=
  let comp := fun c => if c = regHL then regIY else if c = indHL then indIYplus else c
  1024 * comp (a / 1024) + comp (a % 1024)

/-- Modelled from the spec's words: the exclusion set
`{ex de,hl; jp (hl); sll (hl)}` of claim C4. -/
def specExcluded (k : Name) (a : Nat) : Bool :=
  (k = str2codes "ex" ∧ a = arg2 regDE regHL)
  ∨ (k = str2codes "jp" ∧ a = indHL)
  ∨ (k = str2codes "sll" ∧ a = indHL)

/-- The entries claim C4 says the derived IX table consists of: every
base variant whose shape the renaming changes and that is not excluded,
renamed and prefixed with `0xDD`, plus the injected `jp (ix) = DD E9`. -/
def ixSpecEntries : List (Name × Nat × Bytes) :=
  ((tableEntries commandsArgs).filterMap fun e =>
    if specExcluded e.1 e.2.1 then none
    else if specRenameIx e.2.1 = e.2.1 then none
    else some (e.1, specRenameIx e.2.1, 0xdd :: e.2.2))
  ++ [(str2codes "jp", indIX, [0xdd, 0xe9])]

/-- The entries claim C4 says the derived IY table consists of, with the
injected `jp (iy) = FD E9`. -/
def iySpecEntries : List (Name × Nat × Bytes) :=
  ((tableEntries commandsArgs).filterMap fun e =>
    if specExcluded e.1 e.2.1 then none
    else if specRenameIy e.2.1 = e.2.1 then none
    else some (e.1, specRenameIy e.2.1, 0xfd :: e.2.2))
  ++ [(str2codes "jp", indIY, [0xfd, 0xe9])]

/-! ### The two-pass driver (`Assembler.AssembleFile`) -/

/-- Per-pass state reset of `AssembleFile`'s loop body: `pc` and `target`
back to the values saved at entry, the pass number set, the current major
label and the per-pass const-definition map cleared. The labels, their
assignment locations, the const values and the memory persist. -/
def passReset (a : Asm) (pc0 : Int) (t0 : Nat) (p : Nat) : Asm :=
  { a with pc := pc0, target := t0, pass := p, currentMajor := [],
           constsDef := fun _ => false }

/-- The two-pass loop of `AssembleFile`, with the per-pass file assembly
abstracted as `passFn` (pass number and state in, state and optional
error out). The loop resets the state before each pass, ignores the
pass-0 error, returns the pass-1 error, and the deferred restore puts
`pc` and `target` back to their values at entry on both return paths. -/
def AssembleFile (passFn : Nat → Asm → Asm × Option ErrMsg) (a : Asm) :
    Asm × Option ErrMsg :=
  let pc0 := a.pc
  let t0 := a.target
  let r0 := passFn 0 (passReset a pc0 t0 0)
  let r1 := passFn 1 (passReset r0.1 pc0 t0 1)
  ({ r1.1 with pc := pc0, target := t0 }, r1.2)

/-! ### Byte emission (`writeByte`) -/

/-- The buffer length `writeByte` grows to when the write target is at or
past the end: `(target + 16*1024 - 1) / (16*1024) * (16*1024)`. -/
def grownLen (target : Nat) : Nat := (target + 16 * 1024 - 1) / (16 * 1024) * (16 * 1024)

/-- How a byte write can fail: the explicit `pc out of range` error
return, or the runtime index-out-of-range panic of `m[target]`. -/
inductive WriteFault where
  | pcOutOfRange
  | indexPanic
deriving DecidableEq

/-- `writeByte`: grow the buffer when `target` is at or past its length,
reject a `pc` outside `0..65535`, then store at `target` and advance
`pc` and `target`. The store is a runtime panic when `target` is still
out of bounds after the growth. -/
def writeByte (st : Asm) (u : Nat) : Except WriteFault Asm :=
  let m := if st.m.length ≤ st.target then
      st.m ++ List.replicate (grownLen st.target - st.m.length) 0
    else st.m
  if 65536 ≤ st.pc ∨ st.pc < 0 then .error .pcOutOfRange
  else if st.target < m.length then
    .ok { st with m := m.set st.target u, pc := st.pc + 1, target := st.target + 1 }
  else .error .indexPanic

/-! ### Labels and the redefinition policy (`setLabel`) -/

/-- Lookup in the label-assignment association list. -/
def lookupLoc (la : List (Name × Loc)) (q : Name) : Option Loc :=
  (la.find? fun p => p.1 = q).map Prod.snd

/-- Left-biased choice on options, the shape in which a pass-0 label
lookup decomposes into the part recorded before the pass and the part
the pass itself adds. -/
def optOr {α : Type} (a b : Option α) : Option α :=
  match a with
  | some w => some w
  | none => b

/-- `setLabel`: a level-0 (major) label becomes the current major label;
a level-1 (minor) label is qualified as `major.name`. In pass 1 the
definition's location must equal the location recorded in pass 0,
otherwise the `label %q redefined. First defined at %s` error; in pass 0
the label value is stored (`uint16(pc)`) and the first definition's
location recorded. -/
def setLabel (st : Asm) (loc : Loc) (level : Nat) (label : Name) :
    Asm × Option ErrMsg :=
  let major := if level = 0 then label else st.currentMajor
  let lab := if level = 0 then label else st.currentMajor ++ [46] ++ label
  let st1 := { st with currentMajor := major }
  if st1.pass = 1 then
    let fass := (lookupLoc st1.labelAssign lab).getD emptyLoc
    if loc ≠ fass then (st1, some (.labelRedefined lab fass))
    else (st1, none)
  else
    let st2 := { st1 with
      l := fun n => if n = lab then some (Int.toNat (Int.emod st1.pc 65536)) else st1.l n }
    let st3 :=
      if st2.pass = 0 ∧ lookupLoc st2.labelAssign lab = none then
        { st2 with labelAssign := st2.labelAssign ++ [(lab, loc)] }
      else st2
    (st3, none)

/-- A label-definition statement: source location, level (0 = major,
1 = minor) and name. -/
abbrev LabelStmt := Loc × Nat × Name

/-- One pass over the label definitions of a source, accumulating the
statement errors the way the driver does (an erroring statement is
abandoned and assembly continues). -/
def runLabelPass : List LabelStmt → Asm → Asm × List ErrMsg
  | [], st => (st, [])
  | s :: r, st =>
    let (st', e) := setLabel st s.1 s.2.1 s.2.2
    let (stf, es) := runLabelPass r st'
    (stf, e.toList ++ es)

/-- Both passes over the label definitions, driven as `AssembleFile`
does: each pass starts from a reset state, pass-0 errors are discarded,
and the pass-1 errors are the result. -/
def labelTwoPass (stmts : List LabelStmt) (a : Asm) : List ErrMsg :=
  let r0 := runLabelPass stmts (passReset a a.pc a.target 0)
  (runLabelPass stmts (passReset r0.1 a.pc a.target 1)).2

/-- The qualified name sequence of a label-definition list, threading the
current major label: a major definition renames the scope, a minor one is
prefixed with `major.`. -/
def qnames (maj : Name) : List LabelStmt → List (Loc × Name)
  | [] => []
  | (loc, 0, n) :: r => (loc, n) :: qnames n r
  | (loc, _ + 1, n) :: r => (loc, maj ++ [46] ++ n) :: qnames maj r

/-- Location of the first definition of a qualified name in a qualified
sequence. -/
def firstLoc (ql : List (Loc × Name)) (q : Name) : Option Loc :=
  (ql.find? fun x => x.2 = q).map Prod.fst

/-- The pass-1 redefinition check of `setLabel`, as a function of the
recorded assignment map: flag a definition whose location differs from
the recorded one. -/
def redefCheck (la : List (Name × Loc)) (x : Loc × Name) : Option ErrMsg :=
  let fass := (lookupLoc la x.2).getD emptyLoc
  if x.1 ≠ fass then some (.labelRedefined x.2 fass) else none

/-- The redefinition errors the two passes produce, described against the
qualified sequence itself: a definition is flagged exactly when its
location differs from the first definition's location. -/
def redefSpec (ql : List (Loc × Name)) (x : Loc × Name) : Option ErrMsg :=
  let fass := (firstLoc ql x.2).getD emptyLoc
  if x.1 ≠ fass then some (.labelRedefined x.2 fass) else none

/-! ### Per-pass error accumulation (`assembleFile`) -/

/-- Outcome of assembling one statement. -/
inductive StmtRes where
  | ok
  | fail (e : ErrMsg)
deriving DecidableEq

/-- The statement errors of a source, in order. -/
def errorsOf (src : List StmtRes) : List ErrMsg :=
  src.filterMap fun s => match s with | .ok => none | .fail e => some e

/-- One call of `Assembler.assemble` seen at statement granularity: skip
successful statements until the first error (returned together with the
rest of the source) or until the end of the file (`nil`). -/
def runAssembleOnce : List StmtRes → Option ErrMsg × List StmtRes
  | [] => (none, [])
  | .ok :: r => runAssembleOnce r
  | .fail e :: r => (some e, r)

/-- The error-collection loop of `assembleFile`: call `assemble`, append
its error and continue, stop at a clean end of file or when the fuel
(20 minus the errors collected so far) runs out. -/
def passLoop : Nat → List StmtRes → List ErrMsg
  | 0, _ => []
  | fuel + 1, src =>
    match runAssembleOnce src with
    | (none, _) => []
    | (some e, rest) => e :: passLoop fuel rest

/-- `assembleFile`'s result: `none` on no errors, otherwise the collected
messages (which the source joins with newlines into one error). -/
def assembleFilePass (src : List StmtRes) : Option (List ErrMsg) :=
  let errs := passLoop 20 src
  if errs.isEmpty then none else some errs

/-- The statement separators (`endStatement`): `;`, EOF (scanner rune
-1) and newline. -/
def endStatementTok (t : Int) : Bool := t = 59 ∨ t = -1 ∨ t = 10

/-- The post-error drain loop of `assembleFile`: consume tokens until the
last consumed token is a statement separator (or the stream ends). -/
def drainStmt : Int → List Int → Int × List Int
  | last, toks =>
    if endStatementTok last then (last, toks)
    else
      match toks with
      | [] => (last, [])
      | t :: rest => drainStmt t rest

/-! ### Case folding of identifiers -/

/-- Go's `strings.ToLower` on ASCII codes. -/
def lowerCode (c : Nat) : Nat := if 65 ≤ c ∧ c ≤ 90 then c + 32 else c

/-- Lower-cased identifier. -/
def lowerName (s : Name) : Name := s.map lowerCode

/-- Command dispatch (`asm.commandTable[strings.ToLower(tok.s)]`): the
mnemonic is folded to lower case before the table lookup. -/
def commandLookup (t : Table) (s : Name) : Option VarList :=
  (t.find? fun p => p.1 = lowerName s).map Prod.snd

/-- The expression the parser builds for an identifier token
(`parseExpression`'s `scanner.Ident` case): the register and
condition-code annotations come from `regFromString` / `ccFromString`
applied to the token text as written, with the Go map's zero default. -/
def mkIdentExpr (s : Name) : Expr :=
  .ident s ((regFromString s).getD 0) ((ccFromString s).getD 0)

/-! ## Helper lemmas -/

theorem take_min_two {α : Type} (l : List α) : l.take (min 2 l.length) = l.take 2 := by
  rcases le_total 2 l.length with h | h
  · rw [min_eq_left h]
  · rw [min_eq_right h, List.take_length, List.take_of_length_le h]

theorem drop_min_two {α : Type} (l : List α) : l.drop (min 2 l.length) = l.drop 2 := by
  rcases le_total 2 l.length with h | h
  · rw [min_eq_left h]
  · rw [min_eq_right h, List.drop_of_length_le h, List.drop_of_length_le (le_refl _)]

theorem scanVariants_all_nomatch (st : Asm) (vals : List Expr) (l : VarList)
    (found : Option Bytes) (h : ∀ p ∈ l, argsCompatible st vals p.1 = .nomatch) :
    scanVariants st vals l found = .ok found := by
  induction l with
  | nil => rfl
  | cons p rest ih =>
    have hp := h p (by simp)
    simp only [scanVariants]
    rw [hp]
    exact ih fun x hx => h x (by simp [hx])

theorem writeByte_boundary (st : Asm) (u : Nat) (h1 : st.m.length = 65536)
    (h2 : st.target = 65536) (hpc : st.pc = 0x8000) :
    writeByte st u = .error .indexPanic := by
  unfold writeByte
  simp only [h1, h2, hpc, grownLen]
  norm_num [h1]

theorem serializeIntArg_ok_iff (i lo hi : Int) (sz a : Nat)
    (h : argRange a = some (lo, hi, sz)) (hsz : sz = 1 ∨ sz = 2) :
    (∃ bs, serializeIntArg i a = .ok bs) ↔ lo ≤ i ∧ i ≤ hi := by
  unfold serializeIntArg
  rw [h]
  dsimp only
  by_cases hc : i < lo ∨ i > hi
  · rw [if_pos hc]
    constructor
    · rintro ⟨bs, hbs⟩
      exact absurd hbs (by simp)
    · intro hii
      omega
  · rw [if_neg hc]
    push_neg at hc
    refine ⟨fun _ => ⟨hc.1, hc.2⟩, fun _ => ?_⟩
    rcases hsz with rfl | rfl
    · exact ⟨[(Int.emod i 65536).toNat % 256], by simp⟩
    · by_cases hbe : writesBigEndian a
      · exact ⟨[(Int.emod i 65536).toNat / 256, (Int.emod i 65536).toNat % 256], by simp [hbe]⟩
      · exact ⟨[(Int.emod i 65536).toNat % 256, (Int.emod i 65536).toNat / 256], by simp [hbe]⟩

theorem serializeIntArg_err_of_out (i lo hi : Int) (sz a : Nat)
    (h : argRange a = some (lo, hi, sz)) (hout : i < lo ∨ i > hi) :
    serializeIntArg i a = .err (.notInRange i lo hi) := by
  unfold serializeIntArg
  rw [h]
  dsimp only
  rw [if_pos hout]

theorem serializeIntArg_twoByte_le (i lo hi : Int) (a : Nat)
    (h : argRange a = some (lo, hi, 2)) (hbe : writesBigEndian a = false)
    (h1 : lo ≤ i) (h2 : i ≤ hi) :
    serializeIntArg i a
      = .ok [(Int.emod i 65536).toNat % 256, (Int.emod i 65536).toNat / 256] := by
  unfold serializeIntArg
  rw [h]
  dsimp only
  rw [if_neg (by omega)]
  simp [hbe]

theorem serializeIntArg_twoByte_be (i lo hi : Int) (a : Nat)
    (h : argRange a = some (lo, hi, 2)) (hbe : writesBigEndian a = true)
    (h1 : lo ≤ i) (h2 : i ≤ hi) :
    serializeIntArg i a
      = .ok [(Int.emod i 65536).toNat / 256, (Int.emod i 65536).toNat % 256] := by
  unfold serializeIntArg
  rw [h]
  dsimp only
  rw [if_neg (by omega)]
  simp [hbe]

theorem serializeIntArg_oneByte (i lo hi : Int) (a : Nat)
    (h : argRange a = some (lo, hi, 1)) (h1 : lo ≤ i) (h2 : i ≤ hi) :
    serializeIntArg i a = .ok [(Int.emod i 65536).toNat % 256] := by
  unfold serializeIntArg
  rw [h]
  dsimp only
  rw [if_neg (by omega)]
  simp

theorem argsCompatible_length_ne (st : Asm) (vals : List Expr) (a : Nat)
    (h : vals.length ≠ argLen a) : argsCompatible st vals a = .nomatch := by
  unfold argsCompatible
  rw [if_pos h]

theorem argsCompatible_one_of_two (st : Asm) (x : Expr) (a : Nat)
    (h : argLen a = 2) : argsCompatible st [x] a = .nomatch :=
  argsCompatible_length_ne st [x] a (by rw [h]; simp)

theorem scanVariants_split (st : Asm) (vals : List Expr) (l₁ l₂ : VarList)
    (a : Nat) (bs ops : Bytes)
    (hok : argsCompatible st vals a = .ok ops)
    (hrest : ∀ p ∈ l₁ ++ l₂, argsCompatible st vals p.1 = .nomatch) :
    scanVariants st vals (l₁ ++ (a, bs) :: l₂) none = .ok (some (emitPattern bs ops)) := by
  induction l₁ with
  | nil =>
    simp only [List.nil_append, scanVariants]
    rw [hok]
    exact scanVariants_all_nomatch st vals l₂ _ fun x hx => hrest x (by simpa using hx)
  | cons p rest ih =>
    have hp := hrest p (by simp)
    simp only [List.cons_append, scanVariants]
    rw [hp]
    exact ih fun x hx => hrest x (by simp at hx ⊢; tauto)

theorem passLoop_eq_take (src : List StmtRes) : ∀ n, passLoop n src = (errorsOf src).take n := by
  induction src with
  | nil =>
    intro n
    cases n with
    | zero => rfl
    | succ m => rfl
  | cons s r ih =>
    intro n
    cases s with
    | ok =>
      cases n with
      | zero => rfl
      | succ m =>
        have h1 : passLoop (m + 1) (.ok :: r) = passLoop (m + 1) r := rfl
        have h2 : errorsOf (.ok :: r) = errorsOf r := rfl
        rw [h1, h2, ih]
    | fail e =>
      cases n with
      | zero => rfl
      | succ m =>
        have h1 : passLoop (m + 1) (.fail e :: r) = e :: passLoop m r := rfl
        have h2 : errorsOf (.fail e :: r) = e :: errorsOf r := rfl
        rw [h1, h2, ih, List.take_succ_cons]

theorem drainStmt_stops_at_separator (post : List Int) (sep : Int)
    (hsep : endStatementTok sep = true) :
    ∀ (pre : List Int) (last : Int), endStatementTok last = false →
      (∀ t ∈ pre, endStatementTok t = false) →
      drainStmt last (pre ++ sep :: post) = (sep, post) := by
  intro pre
  induction pre with
  | nil =>
    intro last hlast _
    rw [drainStmt.eq_def]
    dsimp only
    rw [if_neg (by simp [hlast])]
    simp only [List.nil_append]
    rw [drainStmt.eq_def]
    dsimp only
    rw [if_pos hsep]
  | cons c r ih =>
    intro last hlast hpre
    rw [drainStmt.eq_def]
    dsimp only
    rw [if_neg (by simp [hlast])]
    simp only [List.cons_append]
    exact ih c (hpre c (by simp)) fun t ht => hpre t (by simp [ht])

theorem lowerCode_idem (c : Nat) : lowerCode (lowerCode c) = lowerCode c := by
  unfold lowerCode
  by_cases h : 65 ≤ c ∧ c ≤ 90
  · rw [if_pos h, if_neg (by omega)]
  · rw [if_neg h, if_neg h]

theorem lowerName_idem (s : Name) : lowerName (lowerName s) = lowerName s := by
  induction s with
  | nil => rfl
  | cons c r ih =>
    simp only [lowerName, List.map_cons] at ih ⊢
    rw [lowerCode_idem]
    exact congrArg _ (by simpa [lowerName] using ih)

theorem filterMap_cons_toList {A B : Type} (f : A → Option B) (x : A) (l : List A) :
    List.filterMap f (x :: l) = (f x).toList ++ List.filterMap f l := by
  cases h : f x <;> simp [List.filterMap_cons, h]

theorem setLabel_pass1_eq (st : Asm) (loc : Loc) (level : Nat) (label : Name)
    (h : st.pass = 1) :
    setLabel st loc level label
      = ({ st with currentMajor := if level = 0 then label else st.currentMajor },
         redefCheck st.labelAssign
           (loc, if level = 0 then label else st.currentMajor ++ [46] ++ label)) := by
  unfold setLabel redefCheck
  dsimp only
  rw [h]
  rw [if_pos rfl]
  split <;> split <;> rfl

theorem runLabelPass_pass1_errs :
    ∀ (l : List LabelStmt) (st : Asm), st.pass = 1 →
    (runLabelPass l st).2 = (qnames st.currentMajor l).filterMap (redefCheck st.labelAssign) := by
  intro l
  induction l with
  | nil => intro st _; rfl
  | cons s r ih =>
    intro st h
    obtain ⟨loc, level, n⟩ := s
    cases level with
    | zero =>
      have hstep := setLabel_pass1_eq st loc 0 n h
      norm_num at hstep
      rw [runLabelPass, hstep]
      dsimp only
      rw [qnames, filterMap_cons_toList, ih { st with currentMajor := n } h]
    | succ k =>
      have hstep := setLabel_pass1_eq st loc (k + 1) n h
      have hk : ¬(k + 1 = 0) := by omega
      simp only [if_neg hk] at hstep
      rw [runLabelPass, hstep]
      dsimp only
      rw [qnames, filterMap_cons_toList, ih { st with currentMajor := st.currentMajor } h]

theorem setLabel_pass0_major (st : Asm) (loc : Loc) (n : Name) (h : st.pass = 0) :
    setLabel st loc 0 n
      = (if lookupLoc st.labelAssign n = none
         then ({ st with
                 currentMajor := n
                 l := fun m => if m = n then some (Int.toNat (Int.emod st.pc 65536)) else st.l m
                 labelAssign := st.labelAssign ++ [(n, loc)] }, none)
         else ({ st with
                 currentMajor := n
                 l := fun m => if m = n then some (Int.toNat (Int.emod st.pc 65536)) else st.l m },
               none)) := by
  unfold setLabel
  dsimp only
  rw [h]
  rw [if_neg (by decide : ¬((0 : Nat) = 1))]
  simp only [if_pos (rfl : (0 : Nat) = 0)]
  simp only [eq_self_iff_true, if_true, true_and]
  by_cases hcc : lookupLoc st.labelAssign n = none
  · rw [if_pos hcc, if_pos hcc]
  · rw [if_neg hcc, if_neg hcc]

theorem setLabel_pass0_minor (st : Asm) (loc : Loc) (k : Nat) (n : Name) (h : st.pass = 0) :
    setLabel st loc (k + 1) n
      = (if lookupLoc st.labelAssign (st.currentMajor ++ [46] ++ n) = none
         then ({ st with
                 l := fun m => if m = st.currentMajor ++ [46] ++ n
                   then some (Int.toNat (Int.emod st.pc 65536)) else st.l m
                 labelAssign := st.labelAssign ++ [(st.currentMajor ++ [46] ++ n, loc)] }, none)
         else ({ st with
                 l := fun m => if m = st.currentMajor ++ [46] ++ n
                   then some (Int.toNat (Int.emod st.pc 65536)) else st.l m },
               none)) := by
  unfold setLabel
  dsimp only
  rw [h]
  have hk : ¬(k + 1 = 0) := by omega
  simp only [if_neg hk]
  rw [if_neg (by decide : ¬((0 : Nat) = 1))]
  simp only [eq_self_iff_true, if_true, true_and]
  by_cases hcc : lookupLoc st.labelAssign (st.currentMajor ++ [46] ++ n) = none
  · rw [if_pos hcc, if_pos hcc]
  · rw [if_neg hcc, if_neg hcc]

theorem lookupLoc_append_single (la : List (Name × Loc)) (k : Name) (v : Loc) (q : Name) :
    lookupLoc (la ++ [(k, v)]) q
      = optOr (lookupLoc la q) (if k = q then some v else none) := by
  induction la with
  | nil =>
    by_cases h : k = q
    · simp [lookupLoc, optOr, h]
    · simp [lookupLoc, optOr, h]
  | cons p r ih =>
    by_cases h : p.1 = q
    · simp [lookupLoc, optOr, List.find?_cons_of_pos, h]
    · simp only [lookupLoc, List.cons_append] at ih ⊢
      rw [List.find?_cons_of_neg _ (by simpa using h), List.find?_cons_of_neg _ (by simpa using h)]
      exact ih

theorem firstLoc_cons (loc : Loc) (n : Name) (rest : List (Loc × Name)) (q : Name) :
    firstLoc ((loc, n) :: rest) q = if n = q then some loc else firstLoc rest q := by
  by_cases h : n = q
  · simp [firstLoc, List.find?_cons_of_pos, h]
  · rw [firstLoc, List.find?_cons_of_neg _ (by simpa using h)]
    simp [firstLoc, h]

theorem runLabelPass_pass0_lookup :
    ∀ (l : List LabelStmt) (st : Asm), st.pass = 0 → ∀ q : Name,
    lookupLoc ((runLabelPass l st).1.labelAssign) q
      = optOr (lookupLoc st.labelAssign q) (firstLoc (qnames st.currentMajor l) q) := by
  intro l
  induction l with
  | nil =>
    intro st _ q
    cases hc : lookupLoc st.labelAssign q <;> simp [runLabelPass, qnames, firstLoc, optOr, hc]
  | cons s r ih =>
    intro st h q
    obtain ⟨loc, level, n⟩ := s
    cases level with
    | zero =>
      rw [qnames, firstLoc_cons]
      by_cases hc : lookupLoc st.labelAssign n = none
      · rw [runLabelPass, setLabel_pass0_major st loc n h, if_pos hc]
        dsimp only
        rw [ih { st with
                 currentMajor := n
                 l := fun m => if m = n then some (Int.toNat (Int.emod st.pc 65536)) else st.l m
                 labelAssign := st.labelAssign ++ [(n, loc)] } h q]
        dsimp only
        rw [lookupLoc_append_single]
        by_cases hq : n = q
        · subst hq
          rw [hc]
          rw [if_pos rfl, if_pos rfl]
          rfl
        · rw [if_neg hq, if_neg hq]
          cases lookupLoc st.labelAssign q <;> rfl
      · rw [runLabelPass, setLabel_pass0_major st loc n h, if_neg hc]
        dsimp only
        rw [ih { st with
                 currentMajor := n
                 l := fun m => if m = n then some (Int.toNat (Int.emod st.pc 65536)) else st.l m } h q]
        dsimp only
        by_cases hq : n = q
        · subst hq
          cases hw : lookupLoc st.labelAssign n
          · exact absurd hw hc
          · rfl
        · rw [if_neg hq]
    | succ k =>
      rw [qnames, firstLoc_cons]
      by_cases hc : lookupLoc st.labelAssign (st.currentMajor ++ [46] ++ n) = none
      · rw [runLabelPass, setLabel_pass0_minor st loc k n h, if_pos hc]
        dsimp only
        rw [ih { st with
                 l := fun m => if m = st.currentMajor ++ [46] ++ n
                   then some (Int.toNat (Int.emod st.pc 65536)) else st.l m
                 labelAssign := st.labelAssign ++ [(st.currentMajor ++ [46] ++ n, loc)] } h q]
        dsimp only
        rw [lookupLoc_append_single]
        by_cases hq : st.currentMajor ++ [46] ++ n = q
        · subst hq
          rw [hc]
          rw [if_pos rfl, if_pos rfl]
          rfl
        · rw [if_neg hq, if_neg hq]
          cases lookupLoc st.labelAssign q <;> rfl
      · rw [runLabelPass, setLabel_pass0_minor st loc k n h, if_neg hc]
        dsimp only
        rw [ih { st with
                 l := fun m => if m = st.currentMajor ++ [46] ++ n
                   then some (Int.toNat (Int.emod st.pc 65536)) else st.l m } h q]
        dsimp only
        by_cases hq : st.currentMajor ++ [46] ++ n = q
        · subst hq
          cases hw : lookupLoc st.labelAssign (st.currentMajor ++ [46] ++ n)
          · exact absurd hw hc
          · rfl
        · rw [if_neg hq]

theorem filterMap_congr_fun {A B : Type} (f g : A → Option B) (l : List A)
    (h : ∀ x, f x = g x) : l.filterMap f = l.filterMap g := by
  induction l with
  | nil => rfl
  | cons x r ih => rw [List.filterMap_cons, List.filterMap_cons, h x, ih]

theorem labelTwoPass_eq (stmts : List LabelStmt) (a : Asm) (ha : a.labelAssign = []) :
    labelTwoPass stmts a = (qnames [] stmts).filterMap (redefSpec (qnames [] stmts)) := by
  unfold labelTwoPass
  rw [runLabelPass_pass1_errs stmts
    (passReset (runLabelPass stmts (passReset a a.pc a.target 0)).1 a.pc a.target 1) rfl]
  apply filterMap_congr_fun
  intro x
  unfold redefCheck redefSpec
  have hl : lookupLoc (passReset (runLabelPass stmts (passReset a a.pc a.target 0)).1
      a.pc a.target 1).labelAssign x.2 = firstLoc (qnames [] stmts) x.2 := by
    have h0 := runLabelPass_pass0_lookup stmts (passReset a a.pc a.target 0) rfl x.2
    have hres : (passReset a a.pc a.target 0).labelAssign = [] := ha
    rw [hres] at h0
    have hnil : lookupLoc ([] : List (Name × Loc)) x.2 = none := rfl
    rw [hnil] at h0
    exact h0
  rw [hl]

/-! ## Claim theorems -/

/-- C4: the derived IX (respectively IY) instruction table equals the
base two-operand table with each variant's operand shape renamed by
`HL→IX` and `(HL)→(IX+d)` (respectively IY), its byte pattern prefixed
with `0xDD` (respectively `0xFD`), omitting every variant whose renaming
leaves the shape unchanged and every variant in the exclusion set
`{ex de,hl; jp (hl); sll (hl)}`, plus the injected `jp (ix) = DD E9`
(respectively `jp (iy) = FD E9`). Stated as equality of the flattened
entry lists of the code-built tables with the spec-described ones. -/
theorem ix_iy_table_derivation :
    tableEntries ixCommands = ixSpecEntries ∧ tableEntries iyCommands = iySpecEntries :=
  ⟨by decide, by decide⟩

/-- C3: `AssembleFile` runs exactly two passes (the result is literally
the second pass's outcome after two `passFn` invocations from reset
states); the state pass 1 runs from has the caller's `pc`/`target`
regardless of what pass 0 did; the returned error is pass 1's error —
so it is `none` exactly when pass 1 is clean — and replacing the pass-0
error by anything leaves the result unchanged (pass-0 errors are
discarded). -/
theorem assembleFile_two_pass_error_policy (f : Nat → Asm → Asm × Option ErrMsg) (a : Asm) :
    (AssembleFile f a).2
      = (f 1 (passReset (f 0 (passReset a a.pc a.target 0)).1 a.pc a.target 1)).2
    ∧ (passReset (f 0 (passReset a a.pc a.target 0)).1 a.pc a.target 1).pc = a.pc
    ∧ (passReset (f 0 (passReset a a.pc a.target 0)).1 a.pc a.target 1).target = a.target
    ∧ ((AssembleFile f a).2 = none
        ↔ (f 1 (passReset (f 0 (passReset a a.pc a.target 0)).1 a.pc a.target 1)).2 = none)
    ∧ ∀ (e : Option ErrMsg),
        (AssembleFile (fun p s => if p = 0 then ((f 0 s).1, e) else f p s) a).2
          = (AssembleFile f a).2 :=
  ⟨rfl, rfl, rfl, Iff.rfl, fun _ => rfl⟩

/-- C10: after `AssembleFile` returns — with or without an error — the
assembler's `pc` and `target` equal the values saved at entry (the
deferred restore), while the label map and the label-location map are
the ones the two passes accumulated. -/
theorem assembleFile_frame_effects (f : Nat → Asm → Asm × Option ErrMsg) (a : Asm) :
    (AssembleFile f a).1.pc = a.pc
    ∧ (AssembleFile f a).1.target = a.target
    ∧ (AssembleFile f a).1.l
        = (f 1 (passReset (f 0 (passReset a a.pc a.target 0)).1 a.pc a.target 1)).1.l
    ∧ (AssembleFile f a).1.labelAssign
        = (f 1 (passReset (f 0 (passReset a a.pc a.target 0)).1 a.pc a.target 1)).1.labelAssign :=
  ⟨rfl, rfl, rfl, rfl⟩

/-- C5: integer operand serialization accepts exactly `-128..255` for
`const8`, `-32768..65535` for `const16` and `const16be`, `-128..127` for
`constS8`, `0..65535` for `addr16` and `ind16`, `-128..127` for
`reladdr8` and `0..255` for `port8`; a value outside the shape's range is
a hard error (the `err` outcome, which aborts the statement) rather than
a no-match; two-byte values are emitted low byte first, except
`const16be` which is emitted high byte first. -/
theorem serializeIntArg_ranges_and_endianness (i : Int) :
    ((∃ bs, serializeIntArg i const8 = .ok bs) ↔ -128 ≤ i ∧ i ≤ 255)
  ∧ ((∃ bs, serializeIntArg i const16 = .ok bs) ↔ -32768 ≤ i ∧ i ≤ 65535)
  ∧ ((∃ bs, serializeIntArg i const16be = .ok bs) ↔ -32768 ≤ i ∧ i ≤ 65535)
  ∧ ((∃ bs, serializeIntArg i constS8 = .ok bs) ↔ -128 ≤ i ∧ i ≤ 127)
  ∧ ((∃ bs, serializeIntArg i addr16 = .ok bs) ↔ 0 ≤ i ∧ i ≤ 65535)
  ∧ ((∃ bs, serializeIntArg i ind16 = .ok bs) ↔ 0 ≤ i ∧ i ≤ 65535)
  ∧ ((∃ bs, serializeIntArg i reladdr8 = .ok bs) ↔ -128 ≤ i ∧ i ≤ 127)
  ∧ ((∃ bs, serializeIntArg i port8 = .ok bs) ↔ 0 ≤ i ∧ i ≤ 255)
  ∧ (∀ a lo hi sz, argRange a = some (lo, hi, sz) → i < lo ∨ i > hi →
      serializeIntArg i a = .err (.notInRange i lo hi))
  ∧ (-32768 ≤ i → i ≤ 65535 →
      serializeIntArg i const16
        = .ok [(Int.emod i 65536).toNat % 256, (Int.emod i 65536).toNat / 256]
      ∧ serializeIntArg i const16be
        = .ok [(Int.emod i 65536).toNat / 256, (Int.emod i 65536).toNat % 256])
  ∧ (0 ≤ i → i ≤ 65535 →
      serializeIntArg i addr16
        = .ok [(Int.emod i 65536).toNat % 256, (Int.emod i 65536).toNat / 256]
      ∧ serializeIntArg i ind16
        = .ok [(Int.emod i 65536).toNat % 256, (Int.emod i 65536).toNat / 256]) :=
  ⟨serializeIntArg_ok_iff i (-128) 255 1 const8 (by decide) (Or.inl rfl),
   serializeIntArg_ok_iff i (-32768) 65535 2 const16 (by decide) (Or.inr rfl),
   serializeIntArg_ok_iff i (-32768) 65535 2 const16be (by decide) (Or.inr rfl),
   serializeIntArg_ok_iff i (-128) 127 1 constS8 (by decide) (Or.inl rfl),
   serializeIntArg_ok_iff i 0 65535 2 addr16 (by decide) (Or.inr rfl),
   serializeIntArg_ok_iff i 0 65535 2 ind16 (by decide) (Or.inr rfl),
   serializeIntArg_ok_iff i (-128) 127 1 reladdr8 (by decide) (Or.inl rfl),
   serializeIntArg_ok_iff i 0 255 1 port8 (by decide) (Or.inl rfl),
   fun a lo hi sz h hout => serializeIntArg_err_of_out i lo hi sz a h hout,
   fun h1 h2 =>
     ⟨serializeIntArg_twoByte_le i (-32768) 65535 const16 (by decide) (by decide) h1 h2,
      serializeIntArg_twoByte_be i (-32768) 65535 const16be (by decide) (by decide) h1 h2⟩,
   fun h1 h2 =>
     ⟨serializeIntArg_twoByte_le i 0 65535 addr16 (by decide) (by decide) h1 h2,
      serializeIntArg_twoByte_le i 0 65535 ind16 (by decide) (by decide) h1 h2⟩⟩

/-- C1: when the parsed argument vector matches exactly one variant
`(a, bs)` of the table with operand bytes `ops` (all other variants are
no-matches), `commandAssembler.W` emits exactly
`bs[0..min(2,len)] ++ ops ++ bs[min(2,len)..]`; in particular a 3-byte
pattern with a 1-byte operand — the `DD CB`/`FD CB` bit/rotate family on
`(ix+d)`/`(iy+d)` — puts the displacement byte between the two prefix
bytes and the final opcode byte. -/
theorem commandW_interleaves_pattern_and_operands (st : Asm) (vals : List Expr)
    (l₁ l₂ : VarList) (a : Nat) (bs ops : Bytes)
    (hok : argsCompatible st vals a = .ok ops)
    (hrest : ∀ p ∈ l₁ ++ l₂, argsCompatible st vals p.1 = .nomatch) :
    commandAssemblerW st vals (l₁ ++ (a, bs) :: l₂)
      = .ok (bs.take (min 2 bs.length) ++ ops ++ bs.drop (min 2 bs.length))
    ∧ ∀ p0 p1 opc d, bs = [p0, p1, opc] → ops = [d] →
        bs.take (min 2 bs.length) ++ ops ++ bs.drop (min 2 bs.length) = [p0, p1, d, opc] := by
  constructor
  · unfold commandAssemblerW
    rw [scanVariants_split st vals l₁ l₂ a bs ops hok hrest]
    dsimp only
    rw [take_min_two, drop_min_two]
    rfl
  · rintro p0 p1 opc d rfl rfl
    rfl

/-- C1 witness: `bit 4, (ix+10)` against the derived IX table. The
variant list of `bit` splits around `(4, (ix+d)) ↦ DD CB 66`, the
argument vector `4, (ix+10)` matches only that variant with operand
bytes `[10]`, and the emitted sequence is `DD CB 0A 66`: the
displacement sits between the prefix and the final opcode byte. -/
theorem commandW_interleave_ddcb_witness :
    commandAssemblerW
      ⟨0, 0x8000, 0x8000, fun _ => none, [], [], fun _ => none, fun _ => false, []⟩
      [.int 4, .bracket (.binaryOp 43 (.ident (str2codes "ix") regIX 0) (.int 10))]
      (cmdVariants ixCommands (str2codes "bit"))
      = .ok [0xdd, 0xcb, 10, 0x66] := by
  have hsplit : cmdVariants ixCommands (str2codes "bit")
      = [(arg2 val00h indIXplus, [0xdd, 0xcb, 0x46]),
         (arg2 val01h indIXplus, [0xdd, 0xcb, 0x4e]),
         (arg2 val02h indIXplus, [0xdd, 0xcb, 0x56]),
         (arg2 val03h indIXplus, [0xdd, 0xcb, 0x5e])]
        ++ (arg2 val04h indIXplus, [0xdd, 0xcb, 0x66]) ::
          [(arg2 val05h indIXplus, [0xdd, 0xcb, 0x6e]),
           (arg2 val06h indIXplus, [0xdd, 0xcb, 0x76]),
           (arg2 val07h indIXplus, [0xdd, 0xcb, 0x7e])] := by decide
  have h := commandW_interleaves_pattern_and_operands
    ⟨0, 0x8000, 0x8000, fun _ => none, [], [], fun _ => none, fun _ => false, []⟩
    [.int 4, .bracket (.binaryOp 43 (.ident (str2codes "ix") regIX 0) (.int 10))]
    [(arg2 val00h indIXplus, [0xdd, 0xcb, 0x46]),
     (arg2 val01h indIXplus, [0xdd, 0xcb, 0x4e]),
     (arg2 val02h indIXplus, [0xdd, 0xcb, 0x56]),
     (arg2 val03h indIXplus, [0xdd, 0xcb, 0x5e])]
    [(arg2 val05h indIXplus, [0xdd, 0xcb, 0x6e]),
     (arg2 val06h indIXplus, [0xdd, 0xcb, 0x76]),
     (arg2 val07h indIXplus, [0xdd, 0xcb, 0x7e])]
    (arg2 val04h indIXplus) [0xdd, 0xcb, 0x66] [10]
    (by decide) (by decide)
  rw [hsplit, h.1]
  rfl

/-- C2: evaluating an identifier operand (no register or condition-code
annotation) at the `reladdr8` shape: in pass 1 with the label defined at
`v`, the emitted displacement byte is the two's-complement byte of
`v - (pc + 2)` (a hard error outside `-128..127`, excluded here by the
range hypotheses); in pass 0 with the label not yet defined the emitted
displacement is `0`; consequently `jr` on a label equal to the current
`pc` (the statement `.x jr x`) assembles to the two bytes `18 FE`. -/
theorem reladdr8_displacement (st0 st1 : Asm) (id : Name) (v : Nat)
    (h0p : st0.pass = 0) (h0l : st0.l id = none)
    (h1p : st1.pass = 1) (h1l : st1.l id = some v)
    (hlo : -128 ≤ (v : Int) - (st1.pc + 2)) (hhi : (v : Int) - (st1.pc + 2) ≤ 127) :
    evalAs st0 (.ident id 0 0) reladdr8 true = .ok [0]
  ∧ evalAs st1 (.ident id 0 0) reladdr8 true
      = .ok [(((v : Int) - (st1.pc + 2)).emod 65536).toNat % 256]
  ∧ (st1.pc = (v : Int) →
      commandAssemblerW st1 [.ident id 0 0] (cmdVariants commandsArgs (str2codes "jr"))
        = .ok [0x18, 0xFE]) := by
  have hA : evalAs st0 (.ident id 0 0) reladdr8 true = .ok [0] := by
    simp only [evalAs, identGetIntValue, h0l, h0p]
    norm_num
    decide
  have hB : evalAs st1 (.ident id 0 0) reladdr8 true
      = .ok [(((v : Int) - (st1.pc + 2)).emod 65536).toNat % 256] := by
    have hat : argType reladdr8 = ArgType.relAddress := by decide
    simp only [evalAs, identGetIntValue, h1l, h1p, hat]
    norm_num
    exact serializeIntArg_oneByte _ (-128) 127 reladdr8 (by decide) hlo hhi
  refine ⟨hA, hB, fun hpc => ?_⟩
  have hev : evalAs st1 (.ident id 0 0) reladdr8 true = .ok [0xFE] := by
    rw [hB, hpc]
    have heq : (v : Int) - ((v : Int) + 2) = -2 := by ring
    rw [heq]
    decide
  have hok : argsCompatible st1 [.ident id 0 0] reladdr8 = .ok [0xFE] := by
    have : argsCompatible st1 [.ident id 0 0] reladdr8
        = evalAs st1 (.ident id 0 0) reladdr8 true := rfl
    rw [this, hev]
  have hrest : ∀ p ∈ ([] : VarList) ++
      [(arg2 ccZ reladdr8, [0x28]), (arg2 ccC reladdr8, [0x38]),
       (arg2 ccNZ reladdr8, [0x20]), (arg2 ccNC reladdr8, [0x30])],
      argsCompatible st1 [.ident id 0 0] p.1 = .nomatch := by
    intro p hp
    fin_cases hp <;> exact argsCompatible_one_of_two _ _ _ (by decide)
  have hjr : cmdVariants commandsArgs (str2codes "jr")
      = ([] : VarList) ++ (reladdr8, [0x18]) ::
        [(arg2 ccZ reladdr8, [0x28]), (arg2 ccC reladdr8, [0x38]),
         (arg2 ccNZ reladdr8, [0x20]), (arg2 ccNC reladdr8, [0x30])] := by decide
  rw [hjr]
  unfold commandAssemblerW
  rw [scanVariants_split st1 [.ident id 0 0] [] _ reladdr8 [0x18] [0xFE] hok hrest]
  rfl

/-- C2 witness: a state in pass 1 with label `x = 0x8000` and
`pc = 0x8000` assembles `jr x` to `18 FE`, and the pass-0 state with the
label undefined emits displacement 0. -/
theorem reladdr8_jr_self_witness :
    evalAs ⟨0, 0x8000, 0x8000, fun _ => none, [], [], fun _ => none, fun _ => false, []⟩
      (.ident (str2codes "x") 0 0) reladdr8 true = .ok [0]
  ∧ commandAssemblerW
      ⟨1, 0x8000, 0x8000, fun s => if s = str2codes "x" then some 0x8000 else none,
       [], [], fun _ => none, fun _ => false, []⟩
      [.ident (str2codes "x") 0 0] (cmdVariants commandsArgs (str2codes "jr"))
      = .ok [0x18, 0xFE] := by
  have h := reladdr8_displacement
    ⟨0, 0x8000, 0x8000, fun _ => none, [], [], fun _ => none, fun _ => false, []⟩
    ⟨1, 0x8000, 0x8000, fun s => if s = str2codes "x" then some 0x8000 else none,
     [], [], fun _ => none, fun _ => false, []⟩
    (str2codes "x") 0x8000 rfl rfl rfl (by decide) (by decide) (by decide)
  exact ⟨h.1, h.2.2 (by decide)⟩

/-- C8: within one pass over one file the statement errors are
accumulated up to at most 20 — the collected list is the first 20
statement errors, so a source with 20 or more erroring statements yields
exactly 20 messages — and the returned error is those messages (joined
with newlines by the source); after each error the token stream is
drained to the next statement separator before assembly continues. -/
theorem assembleFile_error_accumulation (src : List StmtRes)
    (h20 : 20 ≤ (errorsOf src).length)
    (last sep : Int) (pre post : List Int)
    (hlast : endStatementTok last = false)
    (hpre : ∀ t ∈ pre, endStatementTok t = false)
    (hsep : endStatementTok sep = true) :
    assembleFilePass src = some ((errorsOf src).take 20)
  ∧ ((errorsOf src).take 20).length = 20
  ∧ drainStmt last (pre ++ sep :: post) = (sep, post) := by
  have hlen : ((errorsOf src).take 20).length = 20 := by
    rw [List.length_take]
    omega
  refine ⟨?_, hlen, drainStmt_stops_at_separator post sep hsep pre last hlast hpre⟩
  unfold assembleFilePass
  rw [passLoop_eq_take]
  rw [if_neg]
  intro hemp
  rw [List.isEmpty_iff] at hemp
  rw [hemp] at hlen
  simp at hlen

/-- C8 witness: a source of 25 erroring statements yields exactly the
first 20 messages, and the drain from a `,` over `+ )` stops at the
newline separator. -/
theorem assembleFile_error_accumulation_witness :
    assembleFilePass (List.replicate 25 (.fail .noSuitable))
      = some ((errorsOf (List.replicate 25 (.fail .noSuitable))).take 20)
  ∧ ((errorsOf (List.replicate 25 (.fail .noSuitable))).take 20).length = 20
  ∧ drainStmt 44 ([43, 41] ++ 10 :: [59]) = (10, [59]) :=
  assembleFile_error_accumulation (List.replicate 25 (.fail .noSuitable))
    (by decide) 44 10 [43, 41] [59] (by decide) (by decide) (by decide)

set_option maxRecDepth 100000 in
/-- C9 counterexample: register operand names are not folded to lower
case. The parser annotates `HL` with no register (while `hl` gets
`regHL`), and the statement `ld HL, 0x4243` fails with the
`no suitable form` error while `ld hl, 0x4243` emits `21 43 42` — the
two spellings do not produce the same bytes, refuting the claim. -/
theorem register_case_sensitivity_counterexample :
    mkIdentExpr (str2codes "HL") = .ident (str2codes "HL") 0 0
  ∧ mkIdentExpr (str2codes "hl") = .ident (str2codes "hl") regHL 0
  ∧ commandAssemblerW
      ⟨0, 0x8000, 0x8000, fun _ => none, [], [], fun _ => none, fun _ => false, []⟩
      [mkIdentExpr (str2codes "hl"), .int 0x4243]
      (cmdVariants commandsArgs (str2codes "ld")) = .ok [0x21, 0x43, 0x42]
  ∧ commandAssemblerW
      ⟨0, 0x8000, 0x8000, fun _ => none, [], [], fun _ => none, fun _ => false, []⟩
      [mkIdentExpr (str2codes "HL"), .int 0x4243]
      (cmdVariants commandsArgs (str2codes "ld")) = .err .noSuitable := by
  refine ⟨by decide, by decide, by decide, by decide⟩

set_option maxRecDepth 100000 in
/-- C9 as amended: mnemonics match case-insensitively — the command
dispatch folds the name with `ToLower`, so any casing selects the same
table entry as the lower-case spelling — but register and condition-code
operand names are matched without folding: only the lower-case spelling
is annotated as a register/condition code, and any other casing is
treated as a plain identifier (a label). -/
theorem case_folding_amended :
    (∀ (t : Table) (s : Name), commandLookup t s = commandLookup t (lowerName s))
  ∧ lowerName (str2codes "XoR") = str2codes "xor"
  ∧ regFromString (str2codes "HL") = none
  ∧ regFromString (lowerName (str2codes "HL")) = some regHL
  ∧ ccFromString (str2codes "NZ") = none
  ∧ ccFromString (lowerName (str2codes "NZ")) = some ccNZ := by
  refine ⟨fun t s => ?_, by decide, by decide, by decide, by decide, by decide⟩
  unfold commandLookup
  rw [lowerName_idem]

/-- C7 (refuting evaluation): `writeByte` with `pc = 0x8000` (in range)
and `target = 65536` at buffer length 65536 — the state after
`org 0x8000, 0x10000` on a fresh assembler — grows the buffer to
`grownLen 65536 = 65536`, i.e. appends nothing, and the store
`m[target]` is out of bounds: the write faults instead of succeeding. -/
theorem writeByte_panics_at_16k_boundary :
    writeByte { pass := 0, pc := 0x8000, target := 65536, l := fun _ => none,
                labelAssign := [], currentMajor := [], consts := fun _ => none,
                constsDef := fun _ => false, m := List.replicate 65536 0 } 1
      = .error .indexPanic :=
  writeByte_boundary _ _ (List.length_replicate _ _) rfl rfl

/-- C6: the label-redefinition policy of `setLabel`, run as the two-pass
driver does (`labelTwoPass`, starting from an empty assignment map). If
the qualified-name sequence of a source first defines `q` at `loc1` and
also defines it at a different location `loc2`, then pass 1 emits the
`label %q redefined. First defined at %s` error carrying `q` and the
location of the first pass-0 definition — so assembly fails. Moreover a
definition sitting at the recorded first location is not flagged, and
every error the two passes emit is a `labelRedefined` for a definition
whose location differs from the recorded first location of its name. -/
theorem label_redefinition_policy (stmts : List LabelStmt) (a : Asm)
    (ha : a.labelAssign = [])
    (q : Name) (loc1 loc2 : Loc)
    (hfirst : firstLoc (qnames [] stmts) q = some loc1)
    (hmem : (loc2, q) ∈ qnames [] stmts)
    (hne : loc2 ≠ loc1) :
    ErrMsg.labelRedefined q loc1 ∈ labelTwoPass stmts a
    ∧ redefSpec (qnames [] stmts) (loc1, q) = none
    ∧ ∀ e ∈ labelTwoPass stmts a, ∃ x,
        x ∈ qnames [] stmts
        ∧ x.1 ≠ (firstLoc (qnames [] stmts) x.2).getD emptyLoc
        ∧ e = ErrMsg.labelRedefined x.2 ((firstLoc (qnames [] stmts) x.2).getD emptyLoc) := by
  have heq := labelTwoPass_eq stmts a ha
  refine ⟨?_, ?_, ?_⟩
  · rw [heq]
    apply List.mem_filterMap.2
    refine ⟨(loc2, q), hmem, ?_⟩
    unfold redefSpec
    dsimp only
    rw [hfirst]
    simp only [Option.getD_some]
    rw [if_pos hne]
  · unfold redefSpec
    dsimp only
    rw [hfirst]
    simp only [Option.getD_some]
    rw [if_neg (fun hh => hh rfl)]
  · intro e he
    rw [heq] at he
    obtain ⟨x, hx, hfx⟩ := List.mem_filterMap.1 he
    unfold redefSpec at hfx
    dsimp only at hfx
    by_cases hcc : x.1 ≠ (firstLoc (qnames [] stmts) x.2).getD emptyLoc
    · rw [if_pos hcc] at hfx
      exact ⟨x, hx, hcc, (Option.some.inj hfx).symm⟩
    · rw [if_neg hcc] at hfx
      exact absurd hfx (by simp)

/-- Concrete run of the redefinition policy: the label `x` defined at
`f:1.1` and redefined at `f:2.1` on a fresh assembler. -/
theorem label_redefinition_witness :
    ErrMsg.labelRedefined [120] ⟨[102], 1, 1⟩
        ∈ labelTwoPass [(⟨[102], 1, 1⟩, 0, [120]), (⟨[102], 2, 1⟩, 0, [120])]
            ⟨0, 0, 65536, fun _ => none, [], [], fun _ => none, fun _ => false, []⟩
      ∧ redefSpec (qnames [] [(⟨[102], 1, 1⟩, 0, [120]), (⟨[102], 2, 1⟩, 0, [120])])
          (⟨[102], 1, 1⟩, [120]) = none
      ∧ ∀ e ∈ labelTwoPass [(⟨[102], 1, 1⟩, 0, [120]), (⟨[102], 2, 1⟩, 0, [120])]
            ⟨0, 0, 65536, fun _ => none, [], [], fun _ => none, fun _ => false, []⟩, ∃ x,
          x ∈ qnames [] [(⟨[102], 1, 1⟩, 0, [120]), (⟨[102], 2, 1⟩, 0, [120])]
          ∧ x.1 ≠ (firstLoc (qnames []
              [(⟨[102], 1, 1⟩, 0, [120]), (⟨[102], 2, 1⟩, 0, [120])]) x.2).getD emptyLoc
          ∧ e = ErrMsg.labelRedefined x.2 ((firstLoc (qnames []
              [(⟨[102], 1, 1⟩, 0, [120]), (⟨[102], 2, 1⟩, 0, [120])]) x.2).getD emptyLoc) :=
  label_redefinition_policy
    [(⟨[102], 1, 1⟩, 0, [120]), (⟨[102], 2, 1⟩, 0, [120])]
    ⟨0, 0, 65536, fun _ => none, [], [], fun _ => none, fun _ => false, []⟩
    rfl [120] ⟨[102], 1, 1⟩ ⟨[102], 2, 1⟩ (by decide) (by decide) (by decide)

end Z80Asm

